import Mathlib

/-!
Verification development for the espeakup speech-command queue core
(src/synth.c and the ALSA audio backend).

The C code is shallowly embedded: the external espeak engine and the ALSA
PCM device are modelled as response oracles, and each embedded function
additionally returns the list of calls it makes into the external
collaborator, so that properties about *what* is sent to the engine or the
sink can be stated and proved.
-/

namespace Espeakup

/-- The espeak parameter identifiers used by synth.c. -/
inductive espeak_PARAMETER
  | espeakRATE
  | espeakVOLUME
  | espeakPITCH
  | espeakRANGE
  | espeakPUNCTUATION
  | espeakCAPITALS
deriving DecidableEq, Repr

/-- espeak result codes (speak_lib.h). -/
inductive espeak_ERROR
  | EE_OK
  | EE_INTERNAL_ERROR
  | EE_BUFFER_FULL
  | EE_NOT_FOUND
deriving DecidableEq, Repr

/-- Adjustment mode of a parameter command: absolute set, increment, decrement.
The code only distinguishes ADJ_DEC and ADJ_SET. -/
inductive adjust_t
  | ADJ_DEC
  | ADJ_SET
  | ADJ_INC
deriving DecidableEq, Repr

/-- struct synth_t: the current (logical) voice settings plus the buffer of
the utterance being spoken.  The `punct` field is read by set_punctuation. -/
structure synth_t where
  frequency : Int
  pitch : Int
  rate : Int
  voice : String
  volume : Int
  punct : Int
  buf : String
  len : Int
deriving DecidableEq, Repr

/- multipliers and offsets (synth.c) -/

def frequencyMultiplier : Int := 11

def pitchMultiplier : Int := 11

def rateMultiplier : Int := 34

def rateOffset : Int := 84

def volumeMultiplier : Int := 22

/-- One call made into the external espeak engine. -/
inductive EngineCall
  | setParameter (p : espeak_PARAMETER) (value : Int)
  | setVoiceByName (name : String)
  | synth (buf : String) (size : Int)
  | cancel
deriving DecidableEq, Repr

/-- Response oracle for the external espeak engine: what each engine
primitive would return, as a function of its arguments. -/
structure EngineOracle where
  setParamRC : espeak_PARAMETER → Int → espeak_ERROR
  setVoiceRC : String → espeak_ERROR
  synthRC : String → espeak_ERROR
  cancelRC : espeak_ERROR

/-- An engine that accepts everything. -/
def oracleOK : EngineOracle :=
  { setParamRC := fun _ _ => .EE_OK
    setVoiceRC := fun _ => .EE_OK
    synthRC := fun _ => .EE_OK
    cancelRC := .EE_OK }

/-- An engine that rejects every request with EE_INTERNAL_ERROR. -/
def oracleFail : EngineOracle :=
  { setParamRC := fun _ _ => .EE_INTERNAL_ERROR
    setVoiceRC := fun _ => .EE_INTERNAL_ERROR
    synthRC := fun _ => .EE_INTERNAL_ERROR
    cancelRC := .EE_INTERNAL_ERROR }

/-- espeak_SetParameter: returns the engine's response and records the call. -/
def espeak_SetParameter (eng : EngineOracle) (p : espeak_PARAMETER)
    (value : Int) : espeak_ERROR × List EngineCall :=
  (eng.setParamRC p value, [.setParameter p value])

/-- espeak_SetVoiceByName. -/
def espeak_SetVoiceByName (eng : EngineOracle) (name : String) :
    espeak_ERROR × List EngineCall :=
  (eng.setVoiceRC name, [.setVoiceByName name])

/-- The common prelude of set_frequency, set_pitch, set_punctuation,
set_rate and set_volume in synth.c:

  if (adj == ADJ_DEC) x = -x;
  if (adj != ADJ_SET) x += current;
-/
def adjustValue (cur x : Int) (adj : adjust_t) : Int :=
  let x := if adj = .ADJ_DEC then -x else x
  if adj ≠ .ADJ_SET then x + cur else x

/-- Result of one of the set_* operations: the returned error code, the
updated synth state, and the engine calls made. -/
structure SetResult where
  rc : espeak_ERROR
  s : synth_t
  calls : List EngineCall
deriving DecidableEq, Repr

/-- set_frequency (synth.c:42): adjust, send freq * frequencyMultiplier as
espeakRANGE, commit the logical value only on EE_OK. -/
def set_frequency (eng : EngineOracle) (s : synth_t) (freq : Int)
    (adj : adjust_t) : SetResult :=
  let freq := adjustValue s.frequency freq adj
  let r := espeak_SetParameter eng .espeakRANGE (freq * frequencyMultiplier)
  { rc := r.1
    s := if r.1 = .EE_OK then { s with frequency := freq } else s
    calls := r.2 }

/-- set_pitch (synth.c:56). -/
def set_pitch (eng : EngineOracle) (s : synth_t) (pitch : Int)
    (adj : adjust_t) : SetResult :=
  let pitch := adjustValue s.pitch pitch adj
  let r := espeak_SetParameter eng .espeakPITCH (pitch * pitchMultiplier)
  { rc := r.1
    s := if r.1 = .EE_OK then { s with pitch := pitch } else s
    calls := r.2 }

/-- set_punctuation (synth.c:70): the value is sent unchanged (no
multiplier, no offset). -/
def set_punctuation (eng : EngineOracle) (s : synth_t) (punct : Int)
    (adj : adjust_t) : SetResult :=
  let punct := adjustValue s.punct punct adj
  let r := espeak_SetParameter eng .espeakPUNCTUATION punct
  { rc := r.1
    s := if r.1 = .EE_OK then { s with punct := punct } else s
    calls := r.2 }

/-- set_rate (synth.c:85): native value is rate * rateMultiplier + rateOffset. -/
def set_rate (eng : EngineOracle) (s : synth_t) (rate : Int)
    (adj : adjust_t) : SetResult :=
  let rate := adjustValue s.rate rate adj
  let r := espeak_SetParameter eng .espeakRATE
    (rate * rateMultiplier + rateOffset)
  { rc := r.1
    s := if r.1 = .EE_OK then { s with rate := rate } else s
    calls := r.2 }

/-- set_voice (synth.c:100): commit the name only on EE_OK. -/
def set_voice (eng : EngineOracle) (s : synth_t) (voice : String) : SetResult :=
  let r := espeak_SetVoiceByName eng voice
  { rc := r.1
    s := if r.1 = .EE_OK then { s with voice := voice } else s
    calls := r.2 }

/-- set_volume (synth.c:110): native value is (vol + 1) * volumeMultiplier. -/
def set_volume (eng : EngineOracle) (s : synth_t) (vol : Int)
    (adj : adjust_t) : SetResult :=
  let vol := adjustValue s.volume vol adj
  let r := espeak_SetParameter eng .espeakVOLUME ((vol + 1) * volumeMultiplier)
  { rc := r.1
    s := if r.1 = .EE_OK then { s with volume := vol } else s
    calls := r.2 }

/-- A concrete synth state (the default settings of synth.c). -/
def synth0 : synth_t :=
  { frequency := 5, pitch := 5, rate := 5, voice := "default", volume := 5
    punct := 0, buf := "", len := 0 }

/-- Modelled from the spec: enum command_t is declared in espeakup.h, which
is not among the source files; the seven CMD_* tags below are exactly those
handled by the switch in queue_process_entry (synth.c:154), and the spec's
Command data model adds a Stop variant beyond them ("a tagged variant over
SetFrequency, SetPitch, SetRate, SetVolume, SetPunctuation, SetVoice,
SpeakText, Stop"). -/
inductive command_t
  | CMD_SET_FREQUENCY
  | CMD_SET_PITCH
  | CMD_SET_PUNCTUATION
  | CMD_SET_RATE
  | CMD_SET_VOICE
  | CMD_SET_VOLUME
  | CMD_SPEAK_TEXT
  | CMD_STOP
deriving DecidableEq, Repr

/-- The seven tags explicitly handled by the switch in queue_process_entry;
any other tag falls into the default branch. -/
def handledTag : command_t → Bool
  | .CMD_SET_FREQUENCY => true
  | .CMD_SET_PITCH => true
  | .CMD_SET_PUNCTUATION => true
  | .CMD_SET_RATE => true
  | .CMD_SET_VOICE => true
  | .CMD_SET_VOLUME => true
  | .CMD_SPEAK_TEXT => true
  | .CMD_STOP => false

/-- Modelled from the spec: struct espeak_entry_t is declared in espeakup.h,
which is not among the source files.  queue_process_entry reads cmd, value,
adjust, buf and len; the spec's SetVoice command "carries a voice-name
string", and SpeakText "carries an owned text buffer and its length". -/
structure espeak_entry_t where
  cmd : command_t
  value : Int
  adjust : adjust_t
  voice : String
  buf : String
  len : Int
deriving DecidableEq, Repr

/-- Modelled from the spec: the queue implementation is not among the source
files; the spec's CommandQueue is a strict FIFO with peekHead (does not
remove).  queue_peek returns the head, or none when the queue is empty. -/
def queue_peek (q : List espeak_entry_t) : Option espeak_entry_t :=
  q.head?

/-- Modelled from the spec: removeHead "removes exactly the current head". -/
def queue_remove (q : List espeak_entry_t) : List espeak_entry_t :=
  q.tail

/-- stop_speech (synth.c:126): set stopped = 1 under the audio mutex, then
espeak_Cancel.  Returns (rc, new stopped flag, engine calls). -/
def stop_speech (eng : EngineOracle) : espeak_ERROR × Bool × List EngineCall :=
  (eng.cancelRC, true, [.cancel])

/-- speak_text (synth.c:134): clear stopped under the audio mutex, then
espeak_Synth(s->buf, s->len + 1, ...).  Returns (rc, new stopped flag,
engine calls). -/
def speak_text (eng : EngineOracle) (s : synth_t) :
    espeak_ERROR × Bool × List EngineCall :=
  (eng.synthRC s.buf, false, [.synth s.buf (s.len + 1)])

/-- Outcome of the switch body of queue_process_entry on one entry.
`err` is the local variable `error` that decides removal: it is `some rc`
when the taken case assigned it, and `none` when the default branch ran and
`error` was left uninitialized. -/
structure DispatchResult where
  err : Option espeak_ERROR
  s : synth_t
  stopped : Bool
  calls : List EngineCall
deriving DecidableEq, Repr

/-- The switch of queue_process_entry (synth.c:154-180), dispatching one
dequeued entry by tag.  CMD_SET_VOICE assigns error = EE_OK without calling
anything; CMD_SPEAK_TEXT copies buf/len into the synth state and calls
speak_text; the default branch assigns nothing (err := none). -/
def dispatch_entry (eng : EngineOracle) (s : synth_t) (stopped : Bool)
    (e : espeak_entry_t) : DispatchResult :=
  match e.cmd with
  | .CMD_SET_FREQUENCY =>
    let r := set_frequency eng s e.value e.adjust
    { err := some r.rc, s := r.s, stopped := stopped, calls := r.calls }
  | .CMD_SET_PITCH =>
    let r := set_pitch eng s e.value e.adjust
    { err := some r.rc, s := r.s, stopped := stopped, calls := r.calls }
  | .CMD_SET_PUNCTUATION =>
    let r := set_punctuation eng s e.value e.adjust
    { err := some r.rc, s := r.s, stopped := stopped, calls := r.calls }
  | .CMD_SET_RATE =>
    let r := set_rate eng s e.value e.adjust
    { err := some r.rc, s := r.s, stopped := stopped, calls := r.calls }
  | .CMD_SET_VOICE =>
    { err := some .EE_OK, s := s, stopped := stopped, calls := [] }
  | .CMD_SET_VOLUME =>
    let r := set_volume eng s e.value e.adjust
    { err := some r.rc, s := r.s, stopped := stopped, calls := r.calls }
  | .CMD_SPEAK_TEXT =>
    let s := { s with buf := e.buf, len := e.len }
    let r := speak_text eng s
    { err := some r.1, s := s, stopped := r.2.1, calls := r.2.2 }
  | .CMD_STOP =>
    { err := none, s := s, stopped := stopped, calls := [] }

/-- The shared state touched by the worker: the command queue, the synth
settings, the cancellation flag `stopped` and the stop request flag
`runner_must_stop`. -/
structure WorldState where
  queue : List espeak_entry_t
  synth : synth_t
  stopped : Bool
  runner_must_stop : Bool
deriving DecidableEq, Repr

/-- Result of queue_process_entry. -/
structure ProcResult where
  queue : List espeak_entry_t
  synth : synth_t
  stopped : Bool
  calls : List EngineCall
deriving DecidableEq, Repr

/-- queue_process_entry (synth.c:146): peek the head, dispatch it, and
remove the head exactly when `error == EE_OK`.  When the default branch of
the switch ran, `error` is read uninitialized by that test; the model
returns none (undefined behaviour) in that case. -/
def queue_process_entry (eng : EngineOracle) (st : WorldState) :
    Option ProcResult :=
  match queue_peek st.queue with
  | none =>
    some { queue := st.queue, synth := st.synth, stopped := st.stopped
           calls := [] }
  | some e =>
    let d := dispatch_entry eng st.synth st.stopped e
    match d.err with
    | none => none
    | some err =>
      some { queue := if err = .EE_OK then queue_remove st.queue else st.queue
             synth := d.s, stopped := d.stopped, calls := d.calls }

/-- free_entry (synth.c:190): the buffer released by freeing one entry —
the text buffer for CMD_SPEAK_TEXT, nothing for any other tag (the entry
struct itself is not modelled as a resource). -/
def free_entry (e : espeak_entry_t) : List String :=
  if e.cmd = .CMD_SPEAK_TEXT then [e.buf] else []

/-- queue_clear (synth.c:197): peek/free/remove until the queue is empty.
Returns the final queue and the list of released text buffers in order. -/
def queue_clear : List espeak_entry_t → List espeak_entry_t × List String
  | [] => ([], [])
  | e :: rest =>
    let r := queue_clear rest
    (r.1, free_entry e ++ r.2)

/-- Result of the worker's stop check: the state afterwards, the buffers
released by the drain, the engine calls made, and whether the
stop_acknowledged condition was signalled. -/
structure StopBranchResult where
  queue : List espeak_entry_t
  synth : synth_t
  stopped : Bool
  runner_must_stop : Bool
  freed : List String
  calls : List EngineCall
  ackSignalled : Bool
deriving DecidableEq, Repr

/-- The stop check at the bottom of the worker loop (synth.c:267-272):
if (runner_must_stop) then queue_clear(); stop_speech();
runner_must_stop = 0; signal stop_acknowledged. -/
def worker_check_stop (eng : EngineOracle) (st : WorldState) :
    StopBranchResult :=
  if st.runner_must_stop then
    let c := queue_clear st.queue
    let sp := stop_speech eng
    { queue := c.1, synth := st.synth, stopped := sp.2.1
      runner_must_stop := false, freed := c.2, calls := sp.2.2
      ackSignalled := true }
  else
    { queue := st.queue, synth := st.synth, stopped := st.stopped
      runner_must_stop := st.runner_must_stop, freed := [], calls := []
      ackSignalled := false }

/-- The PCM states distinguished by alsa_play_callback. -/
inductive snd_pcm_state
  | RUNNING
  | PREPARED
  | SETUP
  | XRUN
deriving DecidableEq, Repr

/-- Response oracle for the ALSA PCM device, indexed by a loop-iteration
counter so that the device's answers may differ between polls:
`avail t` is what snd_pcm_avail_update returns at iteration t, and
`writeRC t n` is what snd_pcm_writei returns at iteration t when asked to
write n frames (negative means error). -/
structure AlsaDev where
  avail : Nat → Int
  writeRC : Nat → Int → Int
  pcmState : snd_pcm_state

/-- An observable action of one alsa_play_callback invocation:
a read of the `stopped` flag (with the value read), a snd_pcm_drop, a
snd_pcm_prepare, or a snd_pcm_writei handing `chunk` frames to the sink. -/
inductive CbEvent
  | checkStopped (value : Bool)
  | drop
  | prepare
  | write (chunk : Int)
deriving DecidableEq, Repr

/-- minimum (alsa.c:56). -/
def minimum (x y : Int) : Int :=
  if x ≤ y then x else y

/-- The write loop of alsa_play_callback (alsa.c:86-99), with fuel bounding
the number of iterations (the C loop can spin while the device reports no
available space).  Each iteration polls avail, clamps it to 32 * 2, writes
min(avail, numsamples) frames, and on write error calls snd_pcm_prepare. -/
def alsa_loop (dev : AlsaDev) : Nat → Nat → Int → List CbEvent
  | 0, _, _ => []
  | fuel + 1, t, numsamples =>
    if numsamples > 0 then
      let avail := dev.avail t
      if avail ≤ 0 then
        alsa_loop dev fuel (t + 1) numsamples
      else
        let avail := minimum avail (32 * 2)
        let to_write := minimum avail numsamples
        let written := dev.writeRC t to_write
        if written < 0 then
          CbEvent.prepare :: alsa_loop dev fuel (t + 1) numsamples
        else
          CbEvent.write to_write ::
            alsa_loop dev fuel (t + 1) (numsamples - written)
    else []

/-- Result of one alsa_play_callback invocation: the return value handed
back to the engine (1 aborts the utterance, 0 continues), the value of the
`stopped` flag afterwards, and the event trace. -/
structure CbResult where
  ret : Int
  stopped : Bool
  events : List CbEvent
deriving DecidableEq, Repr

/-- alsa_play_callback (alsa.c:64): under the audio mutex read `stopped`;
if set, drop the sink, clear the flag and return 1.  Otherwise prepare the
device if it is not running, then write the whole chunk in sub-chunks of at
most 32 * 2 frames.  The flag is read exactly once, before the loop. -/
def alsa_play_callback (dev : AlsaDev) (fuel : Nat) (stopped : Bool)
    (numsamples : Int) : CbResult :=
  if stopped then
    { ret := 1, stopped := false, events := [.checkStopped true, .drop] }
  else
    let prep : List CbEvent :=
      if dev.pcmState ≠ .RUNNING then [.prepare] else []
    { ret := 0, stopped := false
      events := .checkStopped false :: prep ++ alsa_loop dev fuel 0 numsamples }

/-- Is this event a read of the stopped flag? -/
def isCheck : CbEvent → Bool
  | .checkStopped _ => true
  | _ => false

/-- Does every write event after the first have a checkStopped event
between it and the previous write?  The Bool argument records whether a
write has been seen with no check after it. -/
def writesSeparatedByChecks : List CbEvent → Bool → Bool
  | [], _ => true
  | .write _ :: rest, sinceWrite =>
    if sinceWrite then false else writesSeparatedByChecks rest true
  | .checkStopped _ :: rest, _ => writesSeparatedByChecks rest false
  | _ :: rest, b => writesSeparatedByChecks rest b

/-- Is this a write event of at most `bound` frames? -/
def writeWithin (bound : Int) : CbEvent → Bool
  | .write chunk => chunk ≤ bound
  | _ => true

/-- A device that always reports 64 available frames and always writes the
full requested chunk. -/
def devAlways64 : AlsaDev :=
  { avail := fun _ => 64, writeRC := fun _ n => n, pcmState := .RUNNING }

/-- A concrete SpeakText entry. -/
def entrySpeakHello : espeak_entry_t :=
  { cmd := .CMD_SPEAK_TEXT, value := 0, adjust := .ADJ_SET, voice := ""
    buf := "hello", len := 5 }

/-- A concrete SetVoice entry. -/
def entryVoiceEn : espeak_entry_t :=
  { cmd := .CMD_SET_VOICE, value := 0, adjust := .ADJ_SET, voice := "en"
    buf := "", len := 0 }

/-- A concrete SetRate entry (increment by 2). -/
def entryRateInc2 : espeak_entry_t :=
  { cmd := .CMD_SET_RATE, value := 2, adjust := .ADJ_INC, voice := ""
    buf := "", len := 0 }

/-- A concrete entry whose tag falls into the default branch of the switch. -/
def entryStop : espeak_entry_t :=
  { cmd := .CMD_STOP, value := 0, adjust := .ADJ_SET, voice := ""
    buf := "", len := 0 }

/-- A state with a pending stop request and a non-empty queue. -/
def stStopReq : WorldState :=
  { queue := [entrySpeakHello, entryRateInc2], synth := synth0
    stopped := false, runner_must_stop := true }

/-- A state whose head is a SetVoice command. -/
def stVoiceHead : WorldState :=
  { queue := [entryVoiceEn], synth := synth0, stopped := false
    runner_must_stop := false }

/-- A state whose head is a SetRate command. -/
def stRateHead : WorldState :=
  { queue := [entryRateInc2], synth := synth0, stopped := false
    runner_must_stop := false }

/- ------------------------------------------------------------------ -/
/- Helper lemmas                                                      -/
/- ------------------------------------------------------------------ -/

/-- queue_clear always leaves the queue empty. -/
theorem queue_clear_fst (q : List espeak_entry_t) : (queue_clear q).1 = [] := by
  induction q with
  | nil => rfl
  | cons e rest ih => simpa [queue_clear] using ih

/-- The write loop of the callback never reads the stopped flag. -/
theorem alsa_loop_no_check (dev : AlsaDev) :
    ∀ (fuel t : Nat) (n : Int), (alsa_loop dev fuel t n).filter isCheck = [] := by
  intro fuel
  induction fuel with
  | zero => intro t n; rfl
  | succ fuel ih =>
    intro t n
    rw [alsa_loop]
    split
    · dsimp only
      split
      · exact ih (t + 1) n
      · split
        · simpa [isCheck] using ih (t + 1) n
        · simpa [isCheck] using ih (t + 1) _
    · rfl

/-- Every write the loop hands to the sink is at most 32 * 2 frames. -/
theorem alsa_loop_writes_bounded (dev : AlsaDev) :
    ∀ (fuel t : Nat) (n : Int),
      (alsa_loop dev fuel t n).all (writeWithin (32 * 2)) = true := by
  intro fuel
  induction fuel with
  | zero => intro t n; rfl
  | succ fuel ih =>
    intro t n
    rw [alsa_loop]
    split
    · dsimp only
      split
      · exact ih (t + 1) n
      · split
        · simpa [writeWithin] using ih (t + 1) n
        · refine List.all_cons .. ▸ ?_
          refine (Bool.and_eq_true ..).mpr ⟨?_, ih (t + 1) _⟩
          simp only [writeWithin, minimum, decide_eq_true_eq]
          split <;> split <;> omega
    · rfl

/- ------------------------------------------------------------------ -/
/- Claims                                                             -/
/- ------------------------------------------------------------------ -/

/-- C3 (confirmed): for every parameter field and stored logical value, a
command with value x yields logical value x under Absolute (ADJ_SET),
current + x under Increment (ADJ_INC) and current - x under Decrement
(ADJ_DEC); with an accepting engine the yielded value is the one stored. -/
theorem C3_adjustment_modes (s : synth_t) (x : Int) :
    adjustValue s.rate x .ADJ_SET = x ∧
    adjustValue s.rate x .ADJ_INC = s.rate + x ∧
    adjustValue s.rate x .ADJ_DEC = s.rate - x ∧
    (set_frequency oracleOK s x .ADJ_SET).s.frequency = x ∧
    (set_frequency oracleOK s x .ADJ_INC).s.frequency = s.frequency + x ∧
    (set_frequency oracleOK s x .ADJ_DEC).s.frequency = s.frequency - x ∧
    (set_pitch oracleOK s x .ADJ_SET).s.pitch = x ∧
    (set_pitch oracleOK s x .ADJ_INC).s.pitch = s.pitch + x ∧
    (set_pitch oracleOK s x .ADJ_DEC).s.pitch = s.pitch - x ∧
    (set_punctuation oracleOK s x .ADJ_SET).s.punct = x ∧
    (set_punctuation oracleOK s x .ADJ_INC).s.punct = s.punct + x ∧
    (set_punctuation oracleOK s x .ADJ_DEC).s.punct = s.punct - x ∧
    (set_rate oracleOK s x .ADJ_SET).s.rate = x ∧
    (set_rate oracleOK s x .ADJ_INC).s.rate = s.rate + x ∧
    (set_rate oracleOK s x .ADJ_DEC).s.rate = s.rate - x ∧
    (set_volume oracleOK s x .ADJ_SET).s.volume = x ∧
    (set_volume oracleOK s x .ADJ_INC).s.volume = s.volume + x ∧
    (set_volume oracleOK s x .ADJ_DEC).s.volume = s.volume - x := by
  refine ⟨?_, ?_, ?_, ?_, ?_, ?_, ?_, ?_, ?_, ?_, ?_, ?_, ?_, ?_, ?_, ?_,
    ?_, ?_⟩ <;>
    simp [adjustValue, set_frequency, set_pitch, set_punctuation, set_rate,
      set_volume, espeak_SetParameter, oracleOK] <;> omega

/-- C9 (confirmed): queue_clear leaves the queue empty, and the buffers it
releases are exactly the text buffers of the SpeakText entries, one per
entry in order (free_entry releases nothing for other tags). -/
theorem C9_drain_releases (q : List espeak_entry_t) :
    (queue_clear q).1 = [] ∧
    (queue_clear q).2 =
      (q.filter (fun e => e.cmd == command_t.CMD_SPEAK_TEXT)).map
        (fun e => e.buf) := by
  refine ⟨queue_clear_fst q, ?_⟩
  induction q with
  | nil => rfl
  | cons e rest ih =>
    by_cases h : e.cmd = .CMD_SPEAK_TEXT <;>
      simp [queue_clear, free_entry, h, List.filter_cons, ih]

/-- C6 (corrected) counterexample: the volume conversion is not a pure
multiplication by a per-field constant: no integer multiplier reproduces
the native value set_volume sends (at logical value 0 it sends 22, while
any pure multiplier sends 0). -/
theorem C6_counterexample :
    ¬ ∃ m : Int, ∀ v : Int,
      (set_volume oracleOK synth0 v .ADJ_SET).calls =
        [EngineCall.setParameter .espeakVOLUME (m * v)] := by
  rintro ⟨m, h⟩
  have h0 := h 0
  simp [set_volume, espeak_SetParameter, oracleOK, adjustValue,
    volumeMultiplier] at h0

/-- C6 (amended): the native values sent to the engine are
frequency * 11 (espeakRANGE), pitch * 11 (espeakPITCH),
rate * 34 + 84 (espeakRATE), (volume + 1) * 22 (espeakVOLUME), and the
punctuation value unchanged (espeakPUNCTUATION) — so volume also has an
additive offset (22), and punctuation has no multiplier at all. -/
theorem C6_native_transforms (eng : EngineOracle) (s : synth_t) (v : Int)
    (adj : adjust_t) :
    (set_frequency eng s v adj).calls =
      [.setParameter .espeakRANGE (adjustValue s.frequency v adj * 11)] ∧
    (set_pitch eng s v adj).calls =
      [.setParameter .espeakPITCH (adjustValue s.pitch v adj * 11)] ∧
    (set_rate eng s v adj).calls =
      [.setParameter .espeakRATE (adjustValue s.rate v adj * 34 + 84)] ∧
    (set_volume eng s v adj).calls =
      [.setParameter .espeakVOLUME ((adjustValue s.volume v adj + 1) * 22)] ∧
    (set_punctuation eng s v adj).calls =
      [.setParameter .espeakPUNCTUATION (adjustValue s.punct v adj)] :=
  ⟨rfl, rfl, rfl, rfl, rfl⟩

/-- C10 (corrected) counterexample: for an entry whose tag falls into the
default branch of the switch, the local `error` is not assigned
(modelled as none), and queue_process_entry's removal decision — the read
of `error` — is undefined (modelled as none). -/
theorem C10_counterexample :
    (dispatch_entry oracleOK synth0 false entryStop).err = none ∧
    queue_process_entry oracleOK
      { queue := [entryStop], synth := synth0, stopped := false
        runner_must_stop := false } = none :=
  ⟨rfl, rfl⟩

/-- C10 (amended): `error` is assigned before the `error == EE_OK` test
exactly for the seven explicitly handled tags; for any other tag the
default branch assigns nothing, and the test reads an uninitialized value. -/
theorem C10_error_assigned_iff_handled (eng : EngineOracle) (s : synth_t)
    (b : Bool) (e : espeak_entry_t) :
    (dispatch_entry eng s b e).err.isSome = handledTag e.cmd := by
  rcases e with ⟨cmd, value, adjust, voice, buf, len⟩
  cases cmd <;> rfl

/-- C1 (corrected) counterexample: after the worker's stop branch runs on a
concrete stop-requested state, `stopped` is not false — stop_speech set it
to 1 and the branch never clears it — so the claimed postcondition
"queue empty and stopped = false" fails. -/
theorem C1_counterexample :
    ¬ ((worker_check_stop oracleOK stStopReq).queue = [] ∧
       (worker_check_stop oracleOK stStopReq).stopped = false) := by
  intro h
  exact absurd h.2 (by decide)

/-- C1 (amended): after the worker observes the stop flag and runs its stop
branch, the queue is empty, `runner_must_stop` is cleared, the engine is
told to cancel, and the acknowledgment is signalled — but the cancellation
flag `stopped` is left TRUE (it is cleared later, by the audio callback on
its next invocation or by speak_text before the next utterance), for every
queue content and state at the time of the request. -/
theorem C1_stop_branch (eng : EngineOracle) (st : WorldState)
    (h : st.runner_must_stop = true) :
    (worker_check_stop eng st).queue = [] ∧
    (worker_check_stop eng st).stopped = true ∧
    (worker_check_stop eng st).runner_must_stop = false ∧
    (worker_check_stop eng st).ackSignalled = true ∧
    (worker_check_stop eng st).calls = [.cancel] := by
  simp [worker_check_stop, h, stop_speech, queue_clear_fst]

/-- Witness for C1_stop_branch at a concrete stop-requested state. -/
theorem C1_stop_branch_witness :
    stStopReq.runner_must_stop = true ∧
    ((worker_check_stop oracleOK stStopReq).queue = [] ∧
     (worker_check_stop oracleOK stStopReq).stopped = true ∧
     (worker_check_stop oracleOK stStopReq).runner_must_stop = false ∧
     (worker_check_stop oracleOK stStopReq).ackSignalled = true ∧
     (worker_check_stop oracleOK stStopReq).calls = [.cancel]) :=
  ⟨rfl, C1_stop_branch oracleOK stStopReq rfl⟩

/-- C2 (corrected) counterexample: with an engine that rejects every
request, processing a queued SetVoice command makes no engine call at all
(calls = []), leaves the stored voice untouched, and still removes the head
(queue = []) — the worker's CMD_SET_VOICE case just sets error = EE_OK, so
there is neither an invocation of set_voice nor a retry on failure. -/
theorem C2_counterexample :
    queue_process_entry oracleFail stVoiceHead =
      some { queue := [], synth := synth0, stopped := false, calls := [] } :=
  rfl

/-- C2 (amended): the worker treats every queued SetVoice command as an
immediate success: it invokes nothing, changes nothing, and removes the
head unconditionally.  The set_voice operation itself (used only for the
startup default voice) does commit the stored name exactly when
espeak_SetVoiceByName succeeds. -/
theorem C2_setvoice_noop (eng : EngineOracle) (st : WorldState)
    (e : espeak_entry_t) (rest : List espeak_entry_t)
    (hq : st.queue = e :: rest) (hc : e.cmd = .CMD_SET_VOICE)
    (s : synth_t) (name : String) :
    queue_process_entry eng st =
      some { queue := rest, synth := st.synth, stopped := st.stopped
             calls := [] } ∧
    (set_voice eng s name).calls = [.setVoiceByName name] ∧
    ((set_voice eng s name).rc = .EE_OK →
      (set_voice eng s name).s = { s with voice := name }) ∧
    ((set_voice eng s name).rc ≠ .EE_OK → (set_voice eng s name).s = s) := by
  refine ⟨?_, rfl, ?_, ?_⟩
  · simp [queue_process_entry, queue_peek, hq, dispatch_entry, hc,
      queue_remove]
  · intro h
    simp only [set_voice, espeak_SetVoiceByName] at h ⊢
    simp [h]
  · intro h
    simp only [set_voice, espeak_SetVoiceByName] at h ⊢
    simp [h]

/-- Witness for C2_setvoice_noop at a concrete SetVoice head with a
rejecting engine. -/
theorem C2_setvoice_noop_witness :
    stVoiceHead.queue = [entryVoiceEn] ∧
    entryVoiceEn.cmd = .CMD_SET_VOICE ∧
    (queue_process_entry oracleFail stVoiceHead =
      some { queue := [], synth := stVoiceHead.synth
             stopped := stVoiceHead.stopped, calls := [] } ∧
     (set_voice oracleFail synth0 "en").calls = [.setVoiceByName "en"] ∧
     ((set_voice oracleFail synth0 "en").rc = .EE_OK →
       (set_voice oracleFail synth0 "en").s = { synth0 with voice := "en" }) ∧
     ((set_voice oracleFail synth0 "en").rc ≠ .EE_OK →
       (set_voice oracleFail synth0 "en").s = synth0)) :=
  ⟨rfl, rfl, C2_setvoice_noop oracleFail stVoiceHead entryVoiceEn [] rfl rfl
    synth0 "en"⟩

/-- C8 (corrected) counterexample: the audio-delivery callback itself
clears the cancellation flag: invoked with stopped = true it drops the
sink, returns the abort indicator 1, and resets stopped to false. -/
theorem C8_counterexample :
    (alsa_play_callback devAlways64 1 true 64).stopped = false ∧
    (alsa_play_callback devAlways64 1 true 64).ret = 1 ∧
    (alsa_play_callback devAlways64 1 true 64).events =
      [.checkStopped true, .drop] :=
  ⟨rfl, rfl, rfl⟩

/-- C8 (amended): `stopped` is set by stop_speech in the worker's stop
branch and stays set there; it is cleared not only by the worker (speak_text
clears it immediately before the next utterance) but also by the audio
callback itself, which resets it to false on observing it (after any
invocation of the callback the flag is false). -/
theorem C8_stopped_lifecycle (dev : AlsaDev) (fuel : Nat) (b : Bool)
    (n : Int) (eng : EngineOracle) (s : synth_t) (st : WorldState) :
    (alsa_play_callback dev fuel b n).stopped = false ∧
    (stop_speech eng).2.1 = true ∧
    (speak_text eng s).2.1 = false ∧
    (st.runner_must_stop = true → (worker_check_stop eng st).stopped = true) := by
  refine ⟨?_, rfl, rfl, ?_⟩
  · cases b <;> simp [alsa_play_callback]
  · intro h
    simp [worker_check_stop, h, stop_speech]

/-- Witness for C8_stopped_lifecycle at concrete inputs. -/
theorem C8_stopped_lifecycle_witness :
    (alsa_play_callback devAlways64 1 true 64).stopped = false ∧
    (stop_speech oracleOK).2.1 = true ∧
    (speak_text oracleOK synth0).2.1 = false ∧
    (stStopReq.runner_must_stop = true →
      (worker_check_stop oracleOK stStopReq).stopped = true) :=
  C8_stopped_lifecycle devAlways64 1 true 64 oracleOK synth0 stStopReq

/-- C7 (corrected) counterexample: a single callback invocation that has to
write 128 frames does so in two 64-frame sub-chunks with no read of the
cancellation flag between them — the trace reads the flag exactly once, at
entry, then commits to the whole chunk. -/
theorem C7_counterexample :
    (alsa_play_callback devAlways64 3 false 128).events =
      [.checkStopped false, .write 64, .write 64] ∧
    writesSeparatedByChecks
      (alsa_play_callback devAlways64 3 false 128).events false = false := by
  constructor <;> decide

/-- C7 (amended): within a single invocation of the audio-delivery
callback, the cancellation flag is read exactly once, at entry before any
write; the chunk is then written in bounded sub-chunks (each at most
32 * 2 frames) with no further cancellation check, so a stop requested
mid-invocation takes effect only at the next invocation. -/
theorem C7_check_once_writes_bounded (dev : AlsaDev) (fuel : Nat) (b : Bool)
    (n : Int) :
    (alsa_play_callback dev fuel b n).events.filter isCheck =
      [.checkStopped b] ∧
    ((alsa_play_callback dev fuel b n).events.head? =
      some (.checkStopped b)) ∧
    (alsa_play_callback dev fuel b n).events.all (writeWithin (32 * 2)) =
      true := by
  cases b with
  | true => exact ⟨rfl, rfl, rfl⟩
  | false =>
    refine ⟨?_, ?_, ?_⟩
    · simp only [alsa_play_callback, Bool.false_eq_true, if_false,
        List.filter_cons, List.filter_append]
      cases h : dev.pcmState <;>
        simp [isCheck, alsa_loop_no_check dev fuel 0 n]
    · simp [alsa_play_callback]
    · have hl := alsa_loop_writes_bounded dev fuel 0 n
      simp only [alsa_play_callback, Bool.false_eq_true, if_false,
        List.all_cons, List.all_append, hl, Bool.and_true]
      cases h : dev.pcmState <;> simp [writeWithin]

/-- C4 (confirmed): every parameter-apply operation stores the new logical
(untransformed) value exactly when the engine call succeeds, and on failure
leaves the stored state exactly as it was; and when the head command fails,
queue_process_entry leaves the queue unchanged, so the next processing
attempt peeks the identical command (same field, value, mode). -/
theorem C4_store_on_success_retry_on_failure (eng : EngineOracle)
    (s sy : synth_t) (x : Int) (adj : adjust_t) (b rms : Bool)
    (e : espeak_entry_t) (rest : List espeak_entry_t) (rc : espeak_ERROR)
    (hd : (dispatch_entry eng sy b e).err = some rc)
    (hrc : rc ≠ .EE_OK) :
    ((set_frequency eng s x adj).rc = .EE_OK →
      (set_frequency eng s x adj).s =
        { s with frequency := adjustValue s.frequency x adj }) ∧
    ((set_frequency eng s x adj).rc ≠ .EE_OK →
      (set_frequency eng s x adj).s = s) ∧
    ((set_pitch eng s x adj).rc = .EE_OK →
      (set_pitch eng s x adj).s =
        { s with pitch := adjustValue s.pitch x adj }) ∧
    ((set_pitch eng s x adj).rc ≠ .EE_OK → (set_pitch eng s x adj).s = s) ∧
    ((set_punctuation eng s x adj).rc = .EE_OK →
      (set_punctuation eng s x adj).s =
        { s with punct := adjustValue s.punct x adj }) ∧
    ((set_punctuation eng s x adj).rc ≠ .EE_OK →
      (set_punctuation eng s x adj).s = s) ∧
    ((set_rate eng s x adj).rc = .EE_OK →
      (set_rate eng s x adj).s = { s with rate := adjustValue s.rate x adj }) ∧
    ((set_rate eng s x adj).rc ≠ .EE_OK → (set_rate eng s x adj).s = s) ∧
    ((set_volume eng s x adj).rc = .EE_OK →
      (set_volume eng s x adj).s =
        { s with volume := adjustValue s.volume x adj }) ∧
    ((set_volume eng s x adj).rc ≠ .EE_OK → (set_volume eng s x adj).s = s) ∧
    queue_process_entry eng
      { queue := e :: rest, synth := sy, stopped := b
        runner_must_stop := rms } = some
      { queue := e :: rest
        synth := (dispatch_entry eng sy b e).s
        stopped := (dispatch_entry eng sy b e).stopped
        calls := (dispatch_entry eng sy b e).calls } ∧
    queue_peek (e :: rest) = some e := by
  refine ⟨?_, ?_, ?_, ?_, ?_, ?_, ?_, ?_, ?_, ?_, ?_, rfl⟩
  all_goals try (
    intro h
    simp only [set_frequency, set_pitch, set_punctuation, set_rate,
      set_volume, espeak_SetParameter] at h ⊢
    simp [h])
  unfold queue_process_entry
  simp only [queue_peek, List.head?_cons]
  rw [hd]
  simp [hrc]

/-- Witness for C4_store_on_success_retry_on_failure: a rejecting engine
with a SetRate head command. -/
theorem C4_store_on_success_retry_on_failure_witness :
    (dispatch_entry oracleFail synth0 false entryRateInc2).err =
      some .EE_INTERNAL_ERROR ∧
    espeak_ERROR.EE_INTERNAL_ERROR ≠ espeak_ERROR.EE_OK ∧
    (((set_rate oracleFail synth0 2 .ADJ_INC).rc ≠ .EE_OK →
       (set_rate oracleFail synth0 2 .ADJ_INC).s = synth0) ∧
     queue_process_entry oracleFail
       { queue := [entryRateInc2], synth := synth0, stopped := false
         runner_must_stop := false } = some
       { queue := [entryRateInc2]
         synth := (dispatch_entry oracleFail synth0 false entryRateInc2).s
         stopped := (dispatch_entry oracleFail synth0 false
           entryRateInc2).stopped
         calls := (dispatch_entry oracleFail synth0 false
           entryRateInc2).calls }) := by
  have h := C4_store_on_success_retry_on_failure oracleFail synth0 synth0 2
    .ADJ_INC false false entryRateInc2 [] .EE_INTERNAL_ERROR rfl (by decide)
  exact ⟨rfl, by decide, h.2.2.2.2.2.2.2.1, h.2.2.2.2.2.2.2.2.2.2.1⟩

/-- C5 (confirmed): for every command at the queue head whose execution
assigned a result code rc, queue_process_entry peeks the head (without
removing it first), executes it, and removes the head if and only if
rc = EE_OK; on failure the whole queue — in particular its head — is
unchanged. -/
theorem C5_peek_then_conditionally_remove (eng : EngineOracle)
    (sy : synth_t) (b rms : Bool) (e : espeak_entry_t)
    (rest : List espeak_entry_t) (rc : espeak_ERROR)
    (hd : (dispatch_entry eng sy b e).err = some rc) :
    queue_process_entry eng
      { queue := e :: rest, synth := sy, stopped := b
        runner_must_stop := rms } = some
      { queue := if rc = .EE_OK then rest else e :: rest
        synth := (dispatch_entry eng sy b e).s
        stopped := (dispatch_entry eng sy b e).stopped
        calls := (dispatch_entry eng sy b e).calls } := by
  unfold queue_process_entry
  simp only [queue_peek, List.head?_cons]
  rw [hd]
  rfl

/-- Witness for C5_peek_then_conditionally_remove: a SetRate head with a
rejecting engine (head left in place). -/
theorem C5_peek_then_conditionally_remove_witness :
    (dispatch_entry oracleFail synth0 false entryRateInc2).err =
      some .EE_INTERNAL_ERROR ∧
    queue_process_entry oracleFail
      { queue := [entryRateInc2], synth := synth0, stopped := false
        runner_must_stop := false } = some
      { queue := if espeak_ERROR.EE_INTERNAL_ERROR = .EE_OK then []
                 else [entryRateInc2]
        synth := (dispatch_entry oracleFail synth0 false entryRateInc2).s
        stopped := (dispatch_entry oracleFail synth0 false
          entryRateInc2).stopped
        calls := (dispatch_entry oracleFail synth0 false
          entryRateInc2).calls } :=
  ⟨rfl, C5_peek_then_conditionally_remove oracleFail synth0 false false
    entryRateInc2 [] .EE_INTERNAL_ERROR rfl⟩

end Espeakup
